import Mathlib

/-!
# Verification of the selki speech-metrics engine

Shallow embedding, in Lean 4, of the metrics engine of the selki repository
(`backend/analyzer`): the pause reconciler and contextual pause classifier
(`analyzer/metrics/pause_quality.py`), the pace segmenter
(`analyzer/metrics/pace.py`), the filler-spike detector
(`analyzer/metrics/fillers.py`), the intonation metric
(`analyzer/metrics/intonation.py`), the content-structure metric
(`analyzer/metrics/content_structure.py`) and the score aggregator
(`analyzer/run_pipeline.py`).

Modelling conventions:
* Python floats are modelled by `ℚ` (all constants appearing in the code are
  exactly representable; no claim hinges on IEEE-754 rounding artefacts).
* Python dicts with fixed key sets are modelled by structures.  The dict key
  `end` is rendered as the field `stop` (`end` is a Lean keyword).
* Python `None` is modelled by `Option`.
* The human-readable `message` strings of feedback items (presentation text
  interpolating formatted floats) are elided from `FeedbackItem`; every other
  field is kept.  Likewise the purely informational `details` maps are
  modelled by their `reason` entry, the only detail entry any property
  mentions.
* Python `while` loops over rational bounds are modelled by fuelled
  recursion, with fuel computed to dominate the number of iterations.
-/

/-- Evidence source of a pause candidate: `"asr"` (Whisper word gaps) or
`"vad"` (voice-activity silence) in `pause_quality.py`. -/
inductive Source where
  | asr
  | vad
deriving DecidableEq, Repr

/-- A pause record as used throughout `pause_quality.py`:
`{"start": ..., "end": ..., "duration": ..., "source": ...}`. -/
structure Pause where
  start : ℚ
  stop : ℚ
  duration : ℚ
  source : Source
deriving DecidableEq, Repr

/-- The overlap length `max(0, min(p1.end, p2.end) - max(p1.start, p2.start))`
computed inside `pauses_overlap` (pause_quality.py, lines 168-171). -/
def overlap_duration (p1 p2 : Pause) : ℚ :=
  max 0 (min p1.stop p2.stop - max p1.start p2.start)

/-- `pauses_overlap(p1, p2, threshold)` (pause_quality.py, lines 157-173):
true iff the overlap length is at least `threshold` (0.1 s at every call
site). -/
def pauses_overlap (p1 p2 : Pause) (threshold : ℚ) : Bool :=
  decide (threshold ≤ overlap_duration p1 p2)

/-- Ordering of pauses by start time, the sort key of
`sorted(pauses, key=lambda x: x["start"])`. -/
def pauseLE (p q : Pause) : Prop := p.start ≤ q.start

instance : DecidableRel pauseLE := fun p q => inferInstanceAs (Decidable (p.start ≤ q.start))

instance : IsTotal Pause pauseLE := ⟨fun p q => le_total p.start q.start⟩

instance : IsTrans Pause pauseLE := ⟨fun _ _ _ h h' => le_trans h h'⟩

/-- Python's `sorted(..., key=lambda x: x["start"])`: a stable sort by start
time (insertion sort is stable, like Python's timsort). -/
def sortByStart (l : List Pause) : List Pause :=
  l.insertionSort pauseLE

/-- The pause produced by the same-source branch of `merge_overlapping_pauses`
(pause_quality.py, lines 233-244): span `[min(starts), max(ends)]`, duration
recomputed, source of the existing accepted pause kept. -/
def mergedPause (existing current : Pause) : Pause :=
  { start := min existing.start current.start
    stop := max existing.stop current.stop
    duration := max existing.stop current.stop - min existing.start current.start
    source := existing.source }

/-- The inner `for i, existing_pause in enumerate(merged)` loop of
`merge_overlapping_pauses` (pause_quality.py, lines 204-254) for one candidate:
scan the accepted list in order for the first pause overlapping the candidate
by at least 0.1 s (`break` after handling it);
* VAD candidate over accepted ASR: replace the accepted pause in place;
* ASR candidate over accepted VAD: drop the candidate;
* same source: replace the accepted pause by the merged span;
* no overlap anywhere: append the candidate at the end. -/
def resolveOverlap : List Pause → Pause → List Pause
  | [], c => [c]
  | e :: rest, c =>
    if pauses_overlap c e (1/10) then
      match c.source, e.source with
      | Source.vad, Source.asr => c :: rest
      | Source.asr, Source.vad => e :: rest
      | _, _ => mergedPause e c :: rest
    else
      e :: resolveOverlap rest c

/-- The outer `for current_pause in sorted_pauses` loop of
`merge_overlapping_pauses`, threading the accepted list. -/
def mergeLoop : List Pause → List Pause → List Pause
  | [], merged => merged
  | c :: rest, merged => mergeLoop rest (resolveOverlap merged c)

/-- `merge_overlapping_pauses(pauses)` (pause_quality.py, lines 179-260):
sort the candidates by start, fold them through the overlap resolution loop,
and sort the result by start.  (The early `return []` for empty input is
subsumed: both sorts and the loop map `[]` to `[]`.) -/
def merge_overlapping_pauses (pauses : List Pause) : List Pause :=
  sortByStart (mergeLoop (sortByStart pauses) [])

/-- `classify_pause(duration)` (pause_quality.py, lines 51-58). -/
def classify_pause (duration : ℚ) : String :=
  if duration < 0.2 then "very_short"
  else if duration < 0.5 then "short"
  else if duration < 1.0 then "medium"
  else "long"

/-- An ASR word token `{"text": ..., "start": ..., "end": ...}` as consumed by
the metric functions (`end` rendered as `stop`). -/
structure Word where
  text : String
  start : ℚ
  stop : ℚ
deriving DecidableEq, Repr

/-- The alternatives of the five `SIGNPOST_PATTERNS` regexes
(pause_quality.py, lines 36-42), flattened: each pattern is an alternation
`\b(w1|w2|...)\b` and `_classify_pause_context` asks whether any pattern
matches, i.e. whether any alternative occurs at word boundaries. -/
def SIGNPOST_PHRASES : List String :=
  ["first", "second", "third", "next", "then", "finally", "lastly",
   "however", "therefore", "thus", "consequently", "moreover", "furthermore",
   "in summary", "in conclusion", "to conclude", "to summarize",
   "for example", "for instance", "such as",
   "on the other hand", "in contrast", "alternatively"]

/-- Python `str.strip()`: drop whitespace from both ends.  (Implemented over
the character list: the point-free core `String` primitives do not reduce in
the kernel.) -/
def pyStrip (s : String) : String :=
  (((s.toList.dropWhile Char.isWhitespace).reverse.dropWhile Char.isWhitespace).reverse).asString

/-- Python `str.endswith(p)`. -/
def pyEndsWith (s p : String) : Bool := p.toList.isSuffixOf s.toList

/-- Python `str.lower()` (ASCII; all texts involved are ASCII). -/
def pyLower (s : String) : String := (s.toList.map Char.toLower).asString

/-- Helper for Python `str.split()` (no argument): accumulate maximal
non-whitespace runs. -/
def wsSplitAux : List Char → List Char → List (List Char)
  | [], acc => if acc = [] then [] else [acc.reverse]
  | c :: rest, acc =>
    if c.isWhitespace then
      if acc = [] then wsSplitAux rest []
      else acc.reverse :: wsSplitAux rest []
    else wsSplitAux rest (c :: acc)

/-- A regex word character (`\w`), ASCII fragment: the searched text and all
pattern alternatives are ASCII here. -/
def isWordChar (c : Char) : Bool := c.isAlphanum || c == '_'

/-- Does `pat` match at the head of `text`, with a `\b` boundary on each side?
`prev` is the character preceding the current position (`none` at the start of
the searched string).  All alternatives begin and end with word characters, so
`\b` holds iff the adjacent character is absent or a non-word character. -/
def signpostAt (pat : List Char) (prev : Option Char) (text : List Char) : Bool :=
  pat.isPrefixOf text &&
    (match prev with
     | none => true
     | some c => !isWordChar c) &&
    (match text.drop pat.length with
     | [] => true
     | c :: _ => !isWordChar c)

/-- Regex search: does any alternative match at any position of `text`?
(The alternatives are nonempty, so the end-of-string position is covered by
the base case.) -/
def signpostSearch (pats : List (List Char)) : Option Char → List Char → Bool
  | prev, [] => pats.any fun p => signpostAt p prev []
  | prev, c :: rest =>
    (pats.any fun p => signpostAt p prev (c :: rest)) || signpostSearch pats (some c) rest

/-- `any(pattern.search(context_text) for pattern in SIGNPOST_REGEX)` from
`_classify_pause_context`; the patterns are case-insensitive but the searched
text is lowercased before the search, so lowercase alternatives suffice. -/
def signpost_match (s : String) : Bool :=
  signpostSearch (SIGNPOST_PHRASES.map String.toList) none s.toList

/-- The `word_before` scan of `_classify_pause_context` (pause_quality.py,
lines 106-112): the word with the largest `end` among words ending at or
before the pause start (first such word wins ties, per the strict `>`). -/
def find_word_before (words : List Word) (pause_start : ℚ) : Option Word :=
  words.foldl
    (fun best w =>
      if decide (w.stop ≤ pause_start) &&
          (match best with
           | none => true
           | some b => decide (b.stop < w.stop)) then some w else best)
    none

/-- The `word_after` scan of `_classify_pause_context` (pause_quality.py,
lines 113-115): the word with the smallest `start` among words starting at or
after the pause end (first such word wins ties, per the strict `<`). -/
def find_word_after (words : List Word) (pause_stop : ℚ) : Option Word :=
  words.foldl
    (fun best w =>
      if decide (pause_stop ≤ w.start) &&
          (match best with
           | none => true
           | some b => decide (w.start < b.start)) then some w else best)
    none

/-- `any(context_before.strip().endswith(p) for p in [".", "!", "?"])`. -/
def endsWithSentencePunct (s : String) : Bool :=
  [".", "!", "?"].any fun p => pyEndsWith (pyStrip s) p

/-- `_classify_pause_context(pause, words)` (pause_quality.py, lines 64-151).
The `> 2.5` branch of the source is an explicit no-op (`pass`) and is elided.
Renamed from `_classify_pause_context` (no leading underscore). -/
def classify_pause_context (pause : Pause) (words : List Word) : String :=
  let pause_duration := pause.duration
  if pause_duration < 0.2 then "awkward"
  else
    let word_before := find_word_before words pause.start
    let word_after := find_word_after words pause.stop
    let context_before := match word_before with | some w => w.text | none => ""
    let context_after := match word_after with | some w => w.text | none => ""
    if context_before ≠ "" ∧ endsWithSentencePunct context_before = true then "helpful"
    else if signpost_match (pyLower (context_before ++ " " ++ context_after)) = true then "helpful"
    else if context_before ≠ "" ∧ pyEndsWith (pyStrip context_before) "," = true
        ∧ 0.3 ≤ pause_duration ∧ pause_duration ≤ 1.2 then "helpful"
    else if 0.4 ≤ pause_duration ∧ pause_duration ≤ 1.5 then "helpful"
    else if 2.0 < pause_duration then "awkward"
    else if pause_duration < 0.4 then "awkward"
    else "helpful"

/-- An ASR word-gap pause `{"start": ..., "end": ..., "duration": ...}` as fed
to `combine_pauses` (no source tag yet). -/
structure PauseIn where
  start : ℚ
  stop : ℚ
  duration : ℚ
deriving DecidableEq, Repr

/-- A VAD silence segment `{"start": ..., "end": ...}`. -/
structure VadSilence where
  start : ℚ
  stop : ℚ
deriving DecidableEq, Repr

/-- `combine_pauses(word_pauses, vad_silences, duration_sec, boundary_margin)`
(pause_quality.py, lines 266-341): tag the word gaps `asr`; trim VAD silences
(margin shrunk to `duration/4` on short clips, zero-length silences and
silences touching the lead-in/trail-out margins dropped), tag them `vad`;
merge. -/
def combine_pauses (word_pauses : List PauseIn) (vad_silences : List VadSilence)
    (duration_sec : ℚ) (boundary_margin : ℚ) : List Pause :=
  let asrPauses : List Pause :=
    word_pauses.map fun p => ⟨p.start, p.stop, p.duration, Source.asr⟩
  let vadPauses : List Pause :=
    if vad_silences ≠ [] ∧ 0 < duration_sec then
      let margin := min boundary_margin (duration_sec / 4)
      vad_silences.filterMap fun s =>
        let dur := max 0 (s.stop - s.start)
        if dur ≤ 0 then none
        else if s.start ≤ margin then none
        else if duration_sec - margin ≤ s.stop then none
        else some ⟨s.start, s.stop, dur, Source.vad⟩
    else []
  merge_overlapping_pauses (asrPauses ++ vadPauses)

/-- A timestamped coaching note `{"start_sec", "end_sec", "message", "tip_type"}`;
the presentation `message` string is elided (see the header). -/
structure FeedbackItem where
  start_sec : ℚ
  end_sec : ℚ
  tip_type : String
deriving DecidableEq, Repr

/-- The uniform metric object produced by every metric function:
`{"score_0_100", "label", "confidence", "abstained", "details", "feedback"}`,
with the `details` map modelled by its `reason` entry. -/
structure MetricResult where
  score_0_100 : Option ℤ
  label : String
  confidence : ℚ
  abstained : Bool
  reason : Option String
  feedback : List FeedbackItem
deriving DecidableEq, Repr

/-- A pause timeline event (pause_quality.py, lines 428-440):
`{"start_sec", "end_sec", "type", "quality", "source", "context"}`. -/
structure TimelineEvent where
  start_sec : ℚ
  end_sec : ℚ
  event_type : String
  quality : String
  source : Source
  context : Option String
deriving DecidableEq, Repr

/-- `_abstained(reason)` (pause_quality.py, lines 533-542), and the abstention
objects built inline by the other metric functions: score `None`, label
`"abstained"`, confidence 0, empty feedback. -/
def abstainedMetric (reason : String) : MetricResult :=
  ⟨none, "abstained", 0, true, some reason, []⟩

/-- `compute_pause_quality_metric(word_pauses, vad_silence_segments,
duration_sec, words)` (pause_quality.py, lines 347-527).  `words = []` models
both Python `None` and the empty list (both falsy at the `if words:` checks).
Returns the metric object and the pause timeline. -/
def compute_pause_quality_metric (word_pauses : List PauseIn)
    (vad_silence_segments : List VadSilence) (duration_sec : ℚ)
    (words : List Word) : MetricResult × List TimelineEvent :=
  if duration_sec ≤ 0 then (abstainedMetric "invalid_duration", [])
  else
    let combined := combine_pauses word_pauses vad_silence_segments duration_sec (3/10)
    if combined = [] then (abstainedMetric "no_pauses_detected", [])
    else
      let pause_rate := (combined.length : ℚ) / duration_sec
      let pause_classifications :=
        if words ≠ [] then combined.map fun p => classify_pause_context p words
        else combined.map fun p =>
          if 0.3 ≤ p.duration ∧ p.duration ≤ 1.5 then "helpful" else "awkward"
      let helpfulCount := (pause_classifications.filter fun c => c == "helpful").length
      let awkwardCount := (pause_classifications.filter fun c => !(c == "helpful")).length
      let total_pauses := combined.length
      let helpfulFrac := (helpfulCount : ℚ) / (total_pauses : ℚ)
      let awkwardFrac := (awkwardCount : ℚ) / (total_pauses : ℚ)
      let labelScore : String × ℤ :=
        if 0.30 < pause_rate then ("too_many_pauses", 45)
        else if pause_rate < 0.05 then ("too_few_pauses", 55)
        else ("good", 85)
      let timeline : List TimelineEvent :=
        (combined.zip pause_classifications).map fun pc =>
          ⟨pc.1.start, pc.1.stop, "pause", classify_pause pc.1.duration, pc.1.source, some pc.2⟩
      let overall_feedback : List FeedbackItem := [⟨0, duration_sec, "pause_quality"⟩]
      let ratio_feedback : List FeedbackItem :=
        if 0.5 < awkwardFrac then [⟨0, duration_sec, "pause_quality"⟩]
        else if 0.7 < helpfulFrac then [⟨0, duration_sec, "pause_quality"⟩]
        else []
      let specific_feedback : List FeedbackItem :=
        if words ≠ [] then
          ((combined.zip pause_classifications).filter fun pc =>
            pc.2 == "awkward" && (decide (pc.1.duration < 0.2) || decide (2.5 < pc.1.duration))).map
            fun pc => ⟨pc.1.start, pc.1.stop, "pause_quality"⟩
        else []
      (⟨some labelScore.2, labelScore.1, 0.75, false, none,
        overall_feedback ++ ratio_feedback ++ specific_feedback⟩, timeline)

/-- `compute_wpm(words, duration_sec)` (pace.py, lines 20-25). -/
def compute_wpm (words : List Word) (duration_sec : ℚ) : ℚ :=
  if duration_sec ≤ 0 then 0
  else
    let minutes := duration_sec / 60
    if 0 < minutes then (words.length : ℚ) / minutes else 0

/-- One `{"start_sec", "end_sec", "wpm"}` entry of `compute_segment_wpm`. -/
structure Segment where
  start_sec : ℚ
  end_sec : ℚ
  wpm : ℚ
deriving DecidableEq, Repr

/-- The `while t < duration_sec` loop of `compute_segment_wpm` (pace.py, lines
51-72), fuelled. -/
def segmentLoop (words : List Word) (duration_sec segment_length : ℚ) :
    ℕ → ℚ → List Segment
  | 0, _ => []
  | fuel + 1, t =>
    if t < duration_sec then
      let segment_end := min (t + segment_length) duration_sec
      let seg_duration := segment_end - t
      if seg_duration ≤ 0 then []
      else
        let segment_words := words.filter fun w =>
          decide (t ≤ w.start) && decide (w.start < segment_end)
        ⟨t, segment_end, compute_wpm segment_words seg_duration⟩ ::
          segmentLoop words duration_sec segment_length fuel (t + segment_length)
    else []

/-- `compute_segment_wpm(words, duration_sec, segment_length)` (pace.py, lines
33-74).  The fuel `⌊duration/segment_length⌋ + 1` dominates the number of loop
iterations whenever `segment_length > 0` (the only regime in which the Python
loop terminates; the sole call site uses `segment_length = 30`). -/
def compute_segment_wpm (words : List Word) (duration_sec segment_length : ℚ) :
    List Segment :=
  if words = [] ∨ duration_sec ≤ 0 then []
  else segmentLoop words duration_sec segment_length
    (⌊duration_sec / segment_length⌋.toNat + 1) 0

/-- `label_from_wpm(wpm)` (pace.py, lines 80-85). -/
def label_from_wpm (wpm : ℚ) : String :=
  if wpm < 110 then "too_slow"
  else if wpm ≤ 170 then "optimal"
  else "too_fast"

/-- `score_from_label(label)` in pace.py (lines 91-97): dict lookup with
default 0. -/
def score_from_label (label : String) : ℤ :=
  if label = "too_slow" then 40
  else if label = "optimal" then 90
  else if label = "too_fast" then 50
  else 0

/-- `feedback_for_segment(seg)` (pace.py, lines 103-127). -/
def feedback_for_segment (seg : Segment) : Option FeedbackItem :=
  if seg.wpm < 110 then some ⟨seg.start_sec, seg.end_sec, "pace"⟩
  else if 170 < seg.wpm then some ⟨seg.start_sec, seg.end_sec, "pace"⟩
  else none

/-- `compute_pace_metric(words, duration_sec)` (pace.py, lines 133-215).
Exactly one overall feedback item is appended (one per label branch), then one
item per non-optimal segment. -/
def compute_pace_metric (words : List Word) (duration_sec : ℚ) : MetricResult :=
  if words = [] ∨ duration_sec ≤ 0 then
    ⟨none, "abstained", 0, true, some "no_words", []⟩
  else
    let wpm := compute_wpm words duration_sec
    let label := label_from_wpm wpm
    let score := score_from_label label
    let seg_stats := compute_segment_wpm words duration_sec 30
    let overall_feedback : List FeedbackItem := [⟨0, duration_sec, "pace"⟩]
    let segment_feedback := seg_stats.filterMap feedback_for_segment
    ⟨some score, label, 0.75, false, none, overall_feedback ++ segment_feedback⟩

/-- `string.punctuation`, the characters removed by `_PUNCT_TABLE`
(fillers.py, line 44).  Spelled as character codes where a literal would be
awkward (39 = apostrophe, 96 = backquote, x7b/x7d = braces). -/
def pythonPunctuation : List Char :=
  ['!', '"', '#', '$', '%', '&', Char.ofNat 39, '(', ')', '*', '+', ',', '-',
   '.', '/', ':', ';', '<', '=', '>', '?', '@', '[', '\\', ']', '^', '_',
   Char.ofNat 96, '\x7b', '|', '\x7d', '~']

/-- `FILLER_TOKENS` (fillers.py, lines 48-58). -/
def FILLER_TOKENS : List String :=
  ["um", "uh", "erm", "er", "uhm", "like", "actually", "basically", "youknow"]

/-- `_normalize_token(text)` (fillers.py, lines 61-71): lowercase, delete
punctuation, strip, collapse internal whitespace (strip and collapse are both
realised by the split/filter/join), then the `"you know" -> "youknow"`
special case.  Renamed from `_normalize_token`. -/
def normalize_token (text : String) : String :=
  let chars := (pyLower text).toList.filter fun c => !pythonPunctuation.contains c
  let t := ((wsSplitAux chars []).intersperse [' ']).flatten.asString
  if t = "you know" then "youknow" else t

/-- One `{"start_sec", "end_sec", "filler_rate"}` spike segment. -/
structure Spike where
  start_sec : ℚ
  end_sec : ℚ
  filler_rate : ℚ
deriving DecidableEq, Repr

/-- The per-window filler rate of `_detect_filler_spikes` (fillers.py, lines
125-131): fillers with `current_start <= t < current_start + window_sec`, per
minute (guarded division as in the source). -/
def windowRate (window_sec : ℚ) (filler_times : List ℚ) (current_start : ℚ) : ℚ :=
  let window_end := current_start + window_sec
  let fillers_in_window :=
    (filler_times.filter fun t => decide (current_start ≤ t) && decide (t < window_end)).length
  if 0 < window_sec / 60 then (fillers_in_window : ℚ) / (window_sec / 60) else 0

/-- One iteration of the sliding-window loop of `_detect_filler_spikes`
(fillers.py, lines 123-146): if the window is a spike, either extend the last
recorded spike (when `abs(spikes[-1]["end_sec"] - current_start) < step_sec`),
keeping the larger rate, or append a new spike. -/
def spikeStep (window_sec step_sec spike_threshold_per_min : ℚ)
    (filler_times : List ℚ) (spikes : List Spike) (current_start : ℚ) : List Spike :=
  let window_end := current_start + window_sec
  let filler_rate := windowRate window_sec filler_times current_start
  if spike_threshold_per_min ≤ filler_rate then
    match spikes.getLast? with
    | some lastSpike =>
      if |lastSpike.end_sec - current_start| < step_sec then
        spikes.dropLast ++
          [⟨lastSpike.start_sec, window_end, max lastSpike.filler_rate filler_rate⟩]
      else spikes ++ [⟨current_start, window_end, filler_rate⟩]
    | none => spikes ++ [⟨current_start, window_end, filler_rate⟩]
  else spikes

/-- The `while current_start + window_sec <= last_word_end` loop of
`_detect_filler_spikes`, fuelled. -/
def spikeLoop (window_sec step_sec spike_threshold_per_min last_word_end : ℚ)
    (filler_times : List ℚ) : ℕ → ℚ → List Spike → List Spike
  | 0, _, spikes => spikes
  | fuel + 1, current_start, spikes =>
    if current_start + window_sec ≤ last_word_end then
      spikeLoop window_sec step_sec spike_threshold_per_min last_word_end filler_times
        fuel (current_start + step_sec)
        (spikeStep window_sec step_sec spike_threshold_per_min filler_times spikes current_start)
    else spikes

/-- Fuel dominating the number of iterations of the sliding-window loop when
`step > 0` (the loop visits `first + k*step` for
`0 ≤ k ≤ (last - first - window)/step`). -/
def spikeFuel (first_word_start last_word_end window_sec step_sec : ℚ) : ℕ :=
  (⌊(last_word_end - first_word_start - window_sec) / step_sec⌋.toNat) + 1

/-- `_detect_filler_spikes(words, window_sec, spike_threshold_per_min)`
(fillers.py, lines 74-150).  Renamed from `_detect_filler_spikes`.  The fuel
is exact for the default `window_sec = 30` (hence `step = 7.5 > 0`); for
`window_sec ≤ 0` the Python loop would not terminate, and no call site uses
such a window. -/
def detect_filler_spikes (words : List Word)
    (window_sec spike_threshold_per_min : ℚ) : List Spike :=
  match words with
  | [] => []
  | w :: ws =>
    let first_word_start := ws.foldl (fun a x => min a x.start) w.start
    let last_word_end := ws.foldl (fun a x => max a x.stop) w.stop
    let duration := last_word_end - first_word_start
    if duration ≤ 0 then []
    else
      let filler_times :=
        (words.filter fun x => FILLER_TOKENS.contains (normalize_token x.text)).map Word.start
      if filler_times = [] then []
      else
        let step_sec := window_sec / 4
        spikeLoop window_sec step_sec spike_threshold_per_min last_word_end filler_times
          (spikeFuel first_word_start last_word_end window_sec step_sec)
          first_word_start []

/-- `compute_fillers_metric(words, duration_sec)` (fillers.py, lines 156-282).
In the model every word `text` is a string, so the `isinstance(text, str)`
guard always passes and `total_tokens = len(words)`; the `details`-only
aggregates (`fillers_per_100_words`, `top_fillers`) are elided.  Exactly one
overall feedback item is appended (one per label branch), then one item per
spike. -/
def compute_fillers_metric (words : List Word) (duration_sec : ℚ) : MetricResult :=
  if duration_sec ≤ 0 ∨ words = [] then abstainedMetric "no_words_or_invalid_duration"
  else
    let duration_min := if 0 < duration_sec then duration_sec / 60 else 1 / 1000000
    let total_tokens := words.length
    let total_fillers :=
      (words.filter fun w => FILLER_TOKENS.contains (normalize_token w.text)).length
    if total_tokens = 0 then abstainedMetric "no_tokens"
    else
      let filler_rate_per_min :=
        if 0 < duration_min then (total_fillers : ℚ) / duration_min else 0
      let filler_spikes := detect_filler_spikes words 30 10
      let labelScore : String × ℤ :=
        if total_fillers = 0 then ("low_filler_rate", 95)
        else if filler_rate_per_min ≤ 3 then ("low_filler_rate", 85)
        else if filler_rate_per_min ≤ 7 then ("moderate_filler_rate", 65)
        else ("high_filler_rate", 45)
      let overall_feedback : List FeedbackItem := [⟨0, duration_sec, "fillers"⟩]
      let spike_feedback := filler_spikes.map fun s => ⟨s.start_sec, s.end_sec, "fillers"⟩
      ⟨some labelScore.2, labelScore.1, 0.75, false, none,
        overall_feedback ++ spike_feedback⟩

/-- Python's built-in `round(x)`: round half to even (used by
`int(round(overall_score))` in run_pipeline.py, line 255). -/
def pyRound (q : ℚ) : ℤ :=
  let f := ⌊q⌋
  let r := q - f
  if r < 1/2 then f
  else if 1/2 < r then f + 1
  else if f % 2 = 0 then f else f + 1

/-- Python's `round(x, 2)` (run_pipeline.py, line 257). -/
def roundTo2 (q : ℚ) : ℚ := (pyRound (q * 100) : ℚ) / 100

/-- The metrics kept by the aggregation loop of `compute_overall_score`
(run_pipeline.py, lines 217-230): not abstained and carrying a score. -/
def contributing (metrics : List MetricResult) : List MetricResult :=
  metrics.filter fun m => !m.abstained && m.score_0_100.isSome

/-- The numeric score of a contributing metric (its `score_0_100`, which
`contributing` guarantees to be present). -/
def scoreOf (m : MetricResult) : ℚ :=
  match m.score_0_100 with
  | some s => (s : ℚ)
  | none => 0

/-- `{"score_0_100", "label", "confidence"}` as returned by
`compute_overall_score`. -/
structure OverallScore where
  score_0_100 : ℤ
  label : String
  confidence : ℚ
deriving DecidableEq, Repr

/-- The exact confidence-weighted mean `sum(weighted_scores)/sum(confidences)`
of run_pipeline.py, line 241 (meaningful when some metric contributes). -/
def overallMean (metrics : List MetricResult) : ℚ :=
  ((contributing metrics).map fun m => scoreOf m * m.confidence).sum /
    ((contributing metrics).map fun m => m.confidence).sum

/-- `compute_overall_score(metrics)` (run_pipeline.py, lines 196-258).  The
Python input is a dict iterated in insertion order; the model takes the list
of its values.  `np.mean` is `sum/len`. -/
def compute_overall_score (metrics : List MetricResult) : OverallScore :=
  let contrib := contributing metrics
  let weighted_scores := contrib.map fun m => scoreOf m * m.confidence
  let confidences := contrib.map fun m => m.confidence
  if confidences = [] ∨ confidences.sum = 0 then ⟨0, "unknown", 0⟩
  else
    let overall_score := weighted_scores.sum / confidences.sum
    let overall_confidence := confidences.sum / (confidences.length : ℚ)
    ⟨pyRound overall_score,
      if 85 ≤ overall_score then "excellent"
      else if 70 ≤ overall_score then "good"
      else if 50 ≤ overall_score then "needs_improvement"
      else "poor",
      roundTo2 overall_confidence⟩

/-- The prosody aggregates `audio_json["audio_features"]` consumed by
`compute_intonation_metric` (any entry may be absent/None). -/
structure AudioFeatures where
  mean_pitch_hz : Option ℚ
  pitch_std_hz : Option ℚ
  mean_energy : Option ℚ
  energy_std : Option ℚ
deriving DecidableEq, Repr

/-- `np.percentile(l, q)` with the default linear interpolation, on a
nonempty list: sort ascending, position `(n-1)*q/100`, interpolate between
the neighbouring entries. -/
def percentile (l : List ℚ) (q : ℚ) : ℚ :=
  let s := l.insertionSort (· ≤ ·)
  let n := s.length
  if n = 0 then 0
  else
    let pos := ((n : ℚ) - 1) * q / 100
    let i := ⌊pos⌋.toNat
    let frac := pos - (⌊pos⌋ : ℚ)
    let lo := s.getD i 0
    let hi := s.getD (i + 1) lo
    lo + frac * (hi - lo)

/-- `compute_exact_pitch_range(raw_pitch_hz)` (intonation.py, lines 46-77).
A raw pitch frame is `Option ℚ` (`none` models NaN, the unvoiced marker);
voiced frames are the finite, strictly positive ones. -/
def compute_exact_pitch_range (raw_pitch_hz : Option (List (Option ℚ))) : Option ℚ :=
  match raw_pitch_hz with
  | none => none
  | some frames =>
    if frames.length = 0 then none
    else
      let voiced := frames.filterMap fun x =>
        match x with
        | some v => if 0 < v then some v else none
        | none => none
      if voiced.length < 10 then none
      else some (percentile voiced 95 - percentile voiced 5)

/-- `estimate_pitch_range(mean_pitch_hz, pitch_std_hz)` (intonation.py,
lines 83-101). -/
def estimate_pitch_range (mean_pitch_hz pitch_std_hz : Option ℚ) : Option ℚ :=
  match mean_pitch_hz, pitch_std_hz with
  | some _, some s => some (4 * s)
  | _, _ => none

/-- `compute_pitch_cov(mean_pitch_hz, pitch_std_hz)` (intonation.py,
lines 107-127). -/
def compute_pitch_cov (mean_pitch_hz pitch_std_hz : Option ℚ) : Option ℚ :=
  match mean_pitch_hz, pitch_std_hz with
  | some m, some s => if m ≤ 0 then none else some (s / m)
  | _, _ => none

/-- `label_from_prosody_factors(...)` (intonation.py, lines 133-207):
bucket each factor into 0/1/2, weight 0.35/0.25/0.25/0.15, threshold the sum. -/
def label_from_prosody_factors (pitch_std_hz pitch_range_hz pitch_cov energy_std :
    Option ℚ) : String :=
  match pitch_std_hz with
  | none => "monotone"
  | some ps =>
    let pitch_std_score : ℚ := if ps < 12 then 0 else if ps < 25 then 1 else 2
    let pitch_range_score : ℚ :=
      match pitch_range_hz with
      | none => 0
      | some pr => if pr < 50 then 0 else if pr < 100 then 1 else 2
    let cov_score : ℚ :=
      match pitch_cov with
      | none => 0
      | some cv => if cv < 0.10 then 0 else if cv < 0.20 then 1 else 2
    let energy_score : ℚ :=
      match energy_std with
      | none => 0
      | some es => if es < 0.005 then 0 else if es < 0.02 then 1 else 2
    let total_score :=
      0.35 * pitch_std_score + 0.25 * pitch_range_score +
        0.25 * cov_score + 0.15 * energy_score
    if total_score < 0.7 then "monotone"
    else if total_score < 1.4 then "somewhat_monotone"
    else "dynamic"

/-- `score_from_label(label)` in intonation.py (lines 213-219): dict lookup
with default 0. -/
def intonation_score_from_label (label : String) : ℤ :=
  if label = "monotone" then 45
  else if label = "somewhat_monotone" then 65
  else if label = "dynamic" then 85
  else 0

/-- `norm(x, lo, hi)` inside `prosody_variance_score` (intonation.py, lines
239-243): clip into `[lo, hi]` and rescale to `[0, 1]`; `None` maps to 0. -/
def prosodyNorm (x : Option ℚ) (lo hi : ℚ) : ℚ :=
  match x with
  | none => 0
  | some v => (max lo (min hi v) - lo) / (hi - lo)

/-- `prosody_variance_score(pitch_std_hz, energy_std)` (intonation.py, lines
225-248). -/
def prosody_variance_score (pitch_std_hz energy_std : Option ℚ) : ℚ :=
  (prosodyNorm pitch_std_hz 5 50 + prosodyNorm energy_std (1/1000) (1/20)) / 2

/-- `compute_intonation_metric(audio_features, duration_sec, raw_pitch_hz)`
(intonation.py, lines 254-397).  Exactly one feedback item is appended (one
per label branch). -/
def compute_intonation_metric (audio_features : AudioFeatures) (duration_sec : ℚ)
    (raw_pitch_hz : Option (List (Option ℚ))) : MetricResult :=
  if duration_sec ≤ 3 then abstainedMetric "talk_too_short_for_intonation"
  else
    match audio_features.pitch_std_hz with
    | none => abstainedMetric "no_pitch_data"
    | some pitch_std =>
      let mean_pitch_hz := audio_features.mean_pitch_hz
      let energy_std := audio_features.energy_std
      let pitch_range_hz :=
        match compute_exact_pitch_range raw_pitch_hz with
        | some r => some r
        | none => estimate_pitch_range mean_pitch_hz (some pitch_std)
      let pitch_cov := compute_pitch_cov mean_pitch_hz (some pitch_std)
      let label := label_from_prosody_factors (some pitch_std) pitch_range_hz
        pitch_cov energy_std
      let score := intonation_score_from_label label
      let prosody_score := prosody_variance_score (some pitch_std) energy_std
      let confidence₀ := 0.6 + 0.3 * prosody_score
      let confidence :=
        if pitch_range_hz.isSome ∧ pitch_cov.isSome then min 0.95 (confidence₀ + 0.05)
        else confidence₀
      let feedback : List FeedbackItem :=
        if label = "monotone" then [⟨0, duration_sec, "intonation"⟩]
        else if label = "somewhat_monotone" then [⟨0, duration_sec, "intonation"⟩]
        else if label = "dynamic" then [⟨0, duration_sec, "intonation"⟩]
        else []
      ⟨some score, label, confidence, false, none, feedback⟩

/-- `_label_and_score(num_sentences, signpost_count, long_sentence_count)`
(content_structure.py, lines 226-258).  Renamed from `_label_and_score`. -/
def label_and_score (num_sentences signpost_count long_sentence_count : ℕ) :
    String × ℤ :=
  if num_sentences = 0 then ("abstained", 0)
  else
    let longFrac := (long_sentence_count : ℚ) / (max 1 num_sentences : ℕ)
    let low_signposts := signpost_count = 0
    if low_signposts ∧ 0.4 < longFrac then ("unclear_structure", 45)
    else if low_signposts ∧ longFrac ≤ 0.4 then ("mixed_structure", 60)
    else if ¬low_signposts ∧ 0.4 < longFrac then ("mostly_clear_structure", 75)
    else ("very_clear_structure", 90)

/-- `compute_content_structure_metric(transcript_text)` (content_structure.py,
lines 294-371).  The spaCy document analysis is an external collaborator
(spec §1 puts sentence segmentation and the signpost lexicon out of scope);
its outputs — the sentence count, signpost count and long-sentence count that
`_sentence_stats`/`_detect_signposts` would extract — are taken as inputs. -/
def compute_content_structure_metric (transcript_text : String)
    (num_sentences signpost_count long_sentence_count : ℕ) : MetricResult :=
  if pyStrip transcript_text = "" then abstainedMetric "empty_transcript"
  else
    let ls := label_and_score num_sentences signpost_count long_sentence_count
    if ls.1 = "abstained" then abstainedMetric "no_sentences"
    else ⟨some ls.2, ls.1, 0.75, false, none, [⟨0, 0, "content_structure"⟩]⟩

/-- The MetricResult contract of spec section 3: `score is null iff abstained`,
and an abstained result carries zero confidence and no feedback. -/
def metricResultInvariant (m : MetricResult) : Prop :=
  (m.score_0_100 = none ↔ m.abstained = true) ∧
    (m.abstained = true → m.confidence = 0 ∧ m.feedback = [])

/-! ## Reconciler invariants

The key structural facts about `merge_overlapping_pauses`: every pair of
pauses in its output overlaps by strictly less than the 0.1 s significance
threshold, and the function is idempotent.  The crucial observation is that a
candidate (whose start is at least every accepted start, the candidates being
processed in start order) can significantly overlap at most one accepted
pause, because two accepted pauses it overlapped would overlap each other. -/

theorem overlap_duration_comm (p q : Pause) :
    overlap_duration p q = overlap_duration q p := by
  unfold overlap_duration
  rw [min_comm p.stop q.stop, max_comm p.start q.start]

theorem inner_ge_of_overlap {a c : Pause} (h : 1/10 ≤ overlap_duration a c) :
    1/10 ≤ min a.stop c.stop - max a.start c.start := by
  rcases le_max_iff.mp h with h' | h'
  · norm_num at h'
  · exact h'

theorem inner_lt_of_not_overlap {a c : Pause} (h : overlap_duration a c < 1/10) :
    min a.stop c.stop - max a.start c.start < 1/10 :=
  lt_of_le_of_lt (le_max_right _ _) h

/-- A candidate `c` whose start dominates the starts of two accepted pauses
cannot significantly overlap both unless they significantly overlap each
other. -/
theorem overlap_third (a b c : Pause) (ha : a.start ≤ c.start) (hb : b.start ≤ c.start)
    (hac : 1/10 ≤ overlap_duration a c) (hbc : 1/10 ≤ overlap_duration b c) :
    1/10 ≤ overlap_duration a b := by
  have h1 := inner_ge_of_overlap hac
  have h2 := inner_ge_of_overlap hbc
  have ha1 : c.start + 1/10 ≤ a.stop := by
    have := min_le_left a.stop c.stop
    have := le_max_right a.start c.start
    linarith
  have hb1 : c.start + 1/10 ≤ b.stop := by
    have := min_le_left b.stop c.stop
    have := le_max_right b.start c.start
    linarith
  apply le_max_of_le_right
  have hmin : c.start + 1/10 ≤ min a.stop b.stop := le_min ha1 hb1
  have hmax : max a.start b.start ≤ c.start := max_le ha hb
  linarith

/-- Replacing an accepted pause `e` by its merged span with a candidate `c`
(both starting no later than `c`) keeps it insignificantly overlapping any
accepted pause `b` that neither `e` nor `c` significantly overlaps. -/
theorem mergedPause_overlap_lt (e c b : Pause) (he : e.start ≤ c.start)
    (hb : b.start ≤ c.start) (hec : 1/10 ≤ overlap_duration e c)
    (hcb : overlap_duration c b < 1/10) (heb : overlap_duration e b < 1/10) :
    overlap_duration (mergedPause e c) b < 1/10 := by
  have h1 := inner_ge_of_overlap hec
  have he1 : c.start + 1/10 ≤ e.stop := by
    have := min_le_left e.stop c.stop
    have := le_max_right e.start c.start
    linarith
  have heb' := inner_lt_of_not_overlap heb
  have hcb' := inner_lt_of_not_overlap hcb
  unfold overlap_duration mergedPause
  apply max_lt (by norm_num)
  rw [min_eq_left he]
  rcases le_total c.stop e.stop with h | h
  · rw [max_eq_left h]
    exact heb'
  · rw [max_eq_right h]
    rcases le_total b.stop e.stop with h2 | h2
    · have h3 : min c.stop b.stop = b.stop := min_eq_right (by linarith)
      have h4 : min e.stop b.stop = b.stop := min_eq_right h2
      rw [h3]
      rw [h4] at heb'
      linarith
    · have h3 : min e.stop b.stop = e.stop := min_eq_left h2
      rw [h3] at heb'
      have h4 : max c.start b.start = c.start := max_eq_left hb
      rw [h4] at hcb'
      have h5 : min c.stop b.stop ≤ e.stop := by
        have : min c.stop b.stop < c.start + 1/10 := by linarith
        linarith
      linarith

theorem pauses_overlap_iff (p q : Pause) (t : ℚ) :
    pauses_overlap p q t = true ↔ t ≤ overlap_duration p q := by
  simp [pauses_overlap]

/-- Everything in `resolveOverlap merged c` is an old accepted pause, the
candidate itself, or the merged span of the candidate with an accepted pause
it significantly overlaps. -/
theorem mem_resolveOverlap {x c : Pause} :
    ∀ {merged : List Pause}, x ∈ resolveOverlap merged c →
      x ∈ merged ∨ x = c ∨
        ∃ e ∈ merged, 1/10 ≤ overlap_duration c e ∧ x = mergedPause e c := by
  intro merged
  induction merged with
  | nil =>
    intro h
    rw [resolveOverlap] at h
    exact Or.inr (Or.inl (List.mem_singleton.mp h))
  | cons e rest ih =>
    intro hx
    rw [resolveOverlap] at hx
    by_cases hov : pauses_overlap c e (1/10) = true
    · rw [if_pos hov] at hx
      have hov' : 1/10 ≤ overlap_duration c e := (pauses_overlap_iff c e (1/10)).mp hov
      cases hsc : c.source <;> cases hse : e.source <;>
          simp only [hsc, hse] at hx
      · rcases List.mem_cons.mp hx with h | h
        · exact Or.inr (Or.inr ⟨e, List.mem_cons_self e rest, hov', h⟩)
        · exact Or.inl (List.mem_cons_of_mem e h)
      · rcases List.mem_cons.mp hx with h | h
        · exact Or.inl (by rw [h]; exact List.mem_cons_self e rest)
        · exact Or.inl (List.mem_cons_of_mem e h)
      · rcases List.mem_cons.mp hx with h | h
        · exact Or.inr (Or.inl h)
        · exact Or.inl (List.mem_cons_of_mem e h)
      · rcases List.mem_cons.mp hx with h | h
        · exact Or.inr (Or.inr ⟨e, List.mem_cons_self e rest, hov', h⟩)
        · exact Or.inl (List.mem_cons_of_mem e h)
    · rw [if_neg hov] at hx
      rcases List.mem_cons.mp hx with h | h
      · exact Or.inl (by rw [h]; exact List.mem_cons_self e rest)
      · rcases ih h with h1 | h2 | ⟨f, hf, hovf, hx'⟩
        · exact Or.inl (List.mem_cons_of_mem e h1)
        · exact Or.inr (Or.inl h2)
        · exact Or.inr (Or.inr ⟨f, List.mem_cons_of_mem e hf, hovf, hx'⟩)

/-- Resolution never introduces a pause starting later than the candidate
(given the accepted pauses start no later than it). -/
theorem resolveOverlap_start_le {merged : List Pause} {c : Pause} {b : ℚ}
    (hm : ∀ m ∈ merged, m.start ≤ b) (hc : c.start ≤ b) :
    ∀ x ∈ resolveOverlap merged c, x.start ≤ b := by
  intro x hx
  rcases mem_resolveOverlap hx with h | h | ⟨e, he, _, hx'⟩
  · exact hm x h
  · rw [h]; exact hc
  · rw [hx']
    exact le_trans (min_le_left _ _) (hm e he)

/-- One resolution step preserves the pairwise-insignificant-overlap invariant
of the accepted list, provided every accepted pause starts no later than the
candidate. -/
theorem resolveOverlap_pairwise {merged : List Pause} {c : Pause}
    (hpw : merged.Pairwise fun p q => overlap_duration p q < 1/10)
    (hstart : ∀ m ∈ merged, m.start ≤ c.start) :
    (resolveOverlap merged c).Pairwise fun p q => overlap_duration p q < 1/10 := by
  induction merged with
  | nil =>
    rw [resolveOverlap]
    exact List.pairwise_singleton _ c
  | cons e rest ih =>
    rw [List.pairwise_cons] at hpw
    obtain ⟨he, hrest⟩ := hpw
    have hestart : e.start ≤ c.start := hstart e (List.mem_cons_self e rest)
    have hreststart : ∀ m ∈ rest, m.start ≤ c.start :=
      fun m hm => hstart m (List.mem_cons_of_mem e hm)
    rw [resolveOverlap]
    by_cases hov : pauses_overlap c e (1/10) = true
    · rw [if_pos hov]
      have hov' : 1/10 ≤ overlap_duration c e := (pauses_overlap_iff c e (1/10)).mp hov
      have hov'' : 1/10 ≤ overlap_duration e c := by rw [overlap_duration_comm]; exact hov'
      have hcr : ∀ r ∈ rest, overlap_duration c r < 1/10 := by
        intro r hr
        by_contra hcon
        push_neg at hcon
        have : 1/10 ≤ overlap_duration e r :=
          overlap_third e r c hestart (hreststart r hr) hov''
            (by rw [overlap_duration_comm]; exact hcon)
        exact absurd (he r hr) (not_lt.mpr this)
      have hhull : ∀ r ∈ rest, overlap_duration (mergedPause e c) r < 1/10 := by
        intro r hr
        exact mergedPause_overlap_lt e c r hestart (hreststart r hr) hov''
          (hcr r hr) (he r hr)
      cases c.source <;> cases e.source
      · exact List.pairwise_cons.mpr ⟨hhull, hrest⟩
      · exact List.pairwise_cons.mpr ⟨he, hrest⟩
      · exact List.pairwise_cons.mpr ⟨hcr, hrest⟩
      · exact List.pairwise_cons.mpr ⟨hhull, hrest⟩
    · rw [if_neg hov]
      have hov' : overlap_duration c e < 1/10 := by
        have := (pauses_overlap_iff c e (1/10)).not.mp hov
        exact lt_of_not_le (fun hle => this hle)
      refine List.pairwise_cons.mpr ⟨?_, ih hrest hreststart⟩
      intro x hx
      rcases mem_resolveOverlap hx with h | h | ⟨f, hf, hovf, hx'⟩
      · exact he x h
      · rw [h, overlap_duration_comm]
        exact hov'
      · rw [hx']
        have hef : overlap_duration f e < 1/10 := by
          rw [overlap_duration_comm]; exact he f hf
        have hce : overlap_duration c e < 1/10 := hov'
        have := mergedPause_overlap_lt f c e (hreststart f hf) hestart
          (by rw [overlap_duration_comm]; exact hovf) hce hef
        rw [overlap_duration_comm]
        exact this

/-- The candidate loop preserves the invariant: accepted pauses pairwise
overlap insignificantly, and all start no later than any pending candidate
(the candidates being sorted by start). -/
theorem mergeLoop_pairwise :
    ∀ (cands merged : List Pause),
      merged.Pairwise (fun p q => overlap_duration p q < 1/10) →
      (∀ m ∈ merged, ∀ d ∈ cands, m.start ≤ d.start) →
      cands.Pairwise pauseLE →
      (mergeLoop cands merged).Pairwise fun p q => overlap_duration p q < 1/10 := by
  intro cands
  induction cands with
  | nil =>
    intro merged hpw _ _
    rw [mergeLoop]
    exact hpw
  | cons c rest ih =>
    intro merged hpw hstart hsorted
    rw [mergeLoop]
    rw [List.pairwise_cons] at hsorted
    obtain ⟨hc, hrest⟩ := hsorted
    refine ih (resolveOverlap merged c) ?_ ?_ hrest
    · exact resolveOverlap_pairwise hpw
        (fun m hm => hstart m hm c (List.mem_cons_self c rest))
    · intro m hm d hd
      exact resolveOverlap_start_le
        (fun m' hm' => hstart m' hm' d (List.mem_cons_of_mem c hd)) (hc d hd) m hm

/-- The merge output of `merge_overlapping_pauses`, before and after the final
sort: every pair of pauses overlaps by strictly less than the 0.1 s
significance threshold. -/
theorem merge_overlapping_pauses_pairwise (pauses : List Pause) :
    (merge_overlapping_pauses pauses).Pairwise
      fun p q => overlap_duration p q < 1/10 := by
  unfold merge_overlapping_pauses
  have hsorted : (sortByStart pauses).Pairwise pauseLE :=
    List.sorted_insertionSort pauseLE pauses
  have h1 : (mergeLoop (sortByStart pauses) []).Pairwise
      (fun p q => overlap_duration p q < 1/10) :=
    mergeLoop_pairwise (sortByStart pauses) [] (List.Pairwise.nil)
      (by intro m hm; exact absurd hm (List.not_mem_nil m)) hsorted
  have hperm : List.Perm (sortByStart (mergeLoop (sortByStart pauses) []))
      (mergeLoop (sortByStart pauses) []) :=
    List.perm_insertionSort pauseLE _
  exact h1.perm hperm.symm
    (fun hxy => by rw [overlap_duration_comm]; exact hxy)

/-- A candidate that overlaps no accepted pause significantly is appended. -/
theorem resolveOverlap_of_no_overlap {c : Pause} :
    ∀ {merged : List Pause}, (∀ m ∈ merged, overlap_duration c m < 1/10) →
      resolveOverlap merged c = merged ++ [c] := by
  intro merged
  induction merged with
  | nil => intro _; rw [resolveOverlap]; rfl
  | cons e rest ih =>
    intro h
    rw [resolveOverlap, if_neg, ih fun m hm => h m (List.mem_cons_of_mem e hm)]
    · rfl
    · have : overlap_duration c e < 1/10 := h e (List.mem_cons_self e rest)
      simp [pauses_overlap_iff]
      linarith

/-- Feeding a pairwise insignificantly-overlapping list through the candidate
loop appends every candidate unchanged. -/
theorem mergeLoop_of_pairwise :
    ∀ (cands acc : List Pause),
      (acc ++ cands).Pairwise (fun p q => overlap_duration p q < 1/10) →
      mergeLoop cands acc = acc ++ cands := by
  intro cands
  induction cands with
  | nil => intro acc _; rw [mergeLoop, List.append_nil]
  | cons c rest ih =>
    intro acc hpw
    rw [mergeLoop]
    have hacc : ∀ m ∈ acc, overlap_duration c m < 1/10 := by
      intro m hm
      have := (List.pairwise_append.mp hpw).2.2 m hm c (List.mem_cons_self c rest)
      rw [overlap_duration_comm]
      exact this
    rw [resolveOverlap_of_no_overlap hacc]
    have : (acc ++ [c]) ++ rest = acc ++ c :: rest := by simp
    rw [ih (acc ++ [c]) (by rw [this]; exact hpw), this]

/-- The reconciled list is sorted by start. -/
theorem merge_overlapping_pauses_sorted (pauses : List Pause) :
    (merge_overlapping_pauses pauses).Pairwise pauseLE :=
  List.sorted_insertionSort pauseLE _

/-- `merge_overlapping_pauses` is idempotent. -/
theorem merge_overlapping_pauses_idem (pauses : List Pause) :
    merge_overlapping_pauses (merge_overlapping_pauses pauses)
      = merge_overlapping_pauses pauses := by
  have hsorted : (merge_overlapping_pauses pauses).Pairwise pauseLE :=
    merge_overlapping_pauses_sorted pauses
  have hpw : (merge_overlapping_pauses pauses).Pairwise
      (fun p q => overlap_duration p q < 1/10) :=
    merge_overlapping_pauses_pairwise pauses
  conv_lhs => rw [merge_overlapping_pauses]
  rw [show sortByStart (merge_overlapping_pauses pauses)
      = merge_overlapping_pauses pauses from List.Sorted.insertionSort_eq hsorted]
  rw [show mergeLoop (merge_overlapping_pauses pauses) []
      = [] ++ merge_overlapping_pauses pauses from
    mergeLoop_of_pairwise (merge_overlapping_pauses pauses) [] (by simpa using hpw)]
  rw [List.nil_append]
  exact List.Sorted.insertionSort_eq hsorted

/-! ## Support lemmas for the candidate-priority and windowing claims -/

/-- When the first significantly overlapping accepted pause (after a prefix of
non-overlapping ones) is ASR and the candidate is VAD, the accepted pause is
replaced in place by the candidate. -/
theorem resolveOverlap_replaces :
    ∀ (pre : List Pause) (e : Pause) (rest : List Pause) (c : Pause),
      (∀ m ∈ pre, overlap_duration c m < 1/10) →
      1/10 ≤ overlap_duration c e →
      c.source = Source.vad → e.source = Source.asr →
      resolveOverlap (pre ++ e :: rest) c = pre ++ c :: rest := by
  intro pre
  induction pre with
  | nil =>
    intro e rest c _ hov hsc hse
    rw [List.nil_append, resolveOverlap,
      if_pos ((pauses_overlap_iff c e (1/10)).mpr hov)]
    simp only [hsc, hse]
    rfl
  | cons p pre' ih =>
    intro e rest c hpre hov hsc hse
    rw [List.cons_append, resolveOverlap, if_neg]
    · rw [ih e rest c (fun m hm => hpre m (List.mem_cons_of_mem p hm)) hov hsc hse]
      rfl
    · have : overlap_duration c p < 1/10 := hpre p (List.mem_cons_self p pre')
      simp [pauses_overlap_iff]
      linarith

/-- When the first significantly overlapping accepted pause (after a prefix of
non-overlapping ones) is VAD and the candidate is ASR, the candidate is
discarded. -/
theorem resolveOverlap_discards :
    ∀ (pre : List Pause) (e : Pause) (rest : List Pause) (c : Pause),
      (∀ m ∈ pre, overlap_duration c m < 1/10) →
      1/10 ≤ overlap_duration c e →
      c.source = Source.asr → e.source = Source.vad →
      resolveOverlap (pre ++ e :: rest) c = pre ++ e :: rest := by
  intro pre
  induction pre with
  | nil =>
    intro e rest c _ hov hsc hse
    rw [List.nil_append, resolveOverlap,
      if_pos ((pauses_overlap_iff c e (1/10)).mpr hov)]
    simp only [hsc, hse]
  | cons p pre' ih =>
    intro e rest c hpre hov hsc hse
    rw [List.cons_append, resolveOverlap, if_neg]
    · rw [ih e rest c (fun m hm => hpre m (List.mem_cons_of_mem p hm)) hov hsc hse]
    · have : overlap_duration c p < 1/10 := hpre p (List.mem_cons_self p pre')
      simp [pauses_overlap_iff]
      linarith

/-- A spike window within `step_sec` of the last recorded spike extends it,
keeping the larger rate. -/
theorem spikeStep_extends (window_sec step_sec thr : ℚ) (filler_times : List ℚ)
    (init : List Spike) (lastSpike : Spike) (current_start : ℚ)
    (hrate : thr ≤ windowRate window_sec filler_times current_start)
    (hnear : |lastSpike.end_sec - current_start| < step_sec) :
    spikeStep window_sec step_sec thr filler_times (init ++ [lastSpike]) current_start
      = init ++ [⟨lastSpike.start_sec, current_start + window_sec,
          max lastSpike.filler_rate (windowRate window_sec filler_times current_start)⟩] := by
  unfold spikeStep
  rw [if_pos hrate, List.getLast?_concat]
  dsimp only
  rw [if_pos hnear, List.dropLast_concat]

/-- A spike window not within `step_sec` of the last recorded spike is
appended as a new spike. -/
theorem spikeStep_appends (window_sec step_sec thr : ℚ) (filler_times : List ℚ)
    (init : List Spike) (lastSpike : Spike) (current_start : ℚ)
    (hrate : thr ≤ windowRate window_sec filler_times current_start)
    (hfar : ¬ |lastSpike.end_sec - current_start| < step_sec) :
    spikeStep window_sec step_sec thr filler_times (init ++ [lastSpike]) current_start
      = (init ++ [lastSpike]) ++ [⟨current_start, current_start + window_sec,
          windowRate window_sec filler_times current_start⟩] := by
  unfold spikeStep
  rw [if_pos hrate, List.getLast?_concat]
  dsimp only
  rw [if_neg hfar]

/-- Every segment emitted by the windowing loop spans `[t, min (t + s) d)` for
its own start `t`, is nonempty, and its rate divides the number of tokens
starting in the window by the window's actual duration in minutes. -/
theorem segmentLoop_spec (words : List Word) (d s : ℚ) :
    ∀ (fuel : ℕ) (t : ℚ), ∀ seg ∈ segmentLoop words d s fuel t,
      seg.end_sec = min (seg.start_sec + s) d ∧
        0 < seg.end_sec - seg.start_sec ∧
        seg.wpm = ((words.filter fun w =>
            decide (seg.start_sec ≤ w.start) && decide (w.start < seg.end_sec)).length : ℚ) /
          ((seg.end_sec - seg.start_sec) / 60) := by
  intro fuel
  induction fuel with
  | zero =>
    intro t seg hseg
    rw [segmentLoop] at hseg
    exact absurd hseg (List.not_mem_nil seg)
  | succ fuel ih =>
    intro t seg hseg
    rw [segmentLoop] at hseg
    by_cases ht : t < d
    · rw [if_pos ht] at hseg
      by_cases hdur : min (t + s) d - t ≤ 0
      · rw [if_pos hdur] at hseg
        exact absurd hseg (List.not_mem_nil seg)
      · rw [if_neg hdur] at hseg
        rcases List.mem_cons.mp hseg with h | h
        · rw [h]
          push_neg at hdur
          refine ⟨rfl, hdur, ?_⟩
          show compute_wpm _ (min (t + s) d - t) = _
          rw [compute_wpm, if_neg (by linarith)]
          have hmin : (0:ℚ) < (min (t + s) d - t) / 60 := by positivity
          rw [if_pos hmin]
        · exact ih (t + s) seg h
    · rw [if_neg ht] at hseg
      exact absurd hseg (List.not_mem_nil seg)

/-! ## The claims -/

/-- C1 (counterexample): two successive sliding windows `[0, 30]` and
`[7.5, 37.5]` both meet the 10/min spike threshold and overlap (the second
starts at 7.5 < 30), yet `_detect_filler_spikes` returns them as two separate
overlapping spike intervals instead of merging them: the merge test
`abs(spikes[-1].end_sec - current_start) < step_sec` compares 22.5 with 7.5
and fails for overlapping windows. -/
theorem overlapping_spike_windows_do_not_merge :
    detect_filler_spikes
      [⟨"hello", 0, 0.5⟩, ⟨"um", 10, 10.3⟩, ⟨"um", 11, 11.3⟩, ⟨"um", 12, 12.3⟩,
       ⟨"um", 13, 13.3⟩, ⟨"um", 14, 14.3⟩, ⟨"hello", 37, 37.5⟩] 30 10
      = [⟨0, 30, 10⟩, ⟨7.5, 37.5, 10⟩] ∧ (7.5 : ℚ) < 30 := by
  constructor
  · norm_num [detect_filler_spikes, spikeFuel, spikeLoop, spikeStep, windowRate,
      List.filter_cons, List.getLast?, min_def, max_def, abs, List.cons_ne_nil,
      show normalize_token "um" ∈ FILLER_TOKENS from by decide,
      show ¬(normalize_token "hello" ∈ FILLER_TOKENS) from by decide]
  · norm_num

/-- C1 (amended): a spike window is merged into the previous spike interval
exactly when the absolute difference between the previous spike's end and the
current window's start is less than the step (not whenever the gap is less
than the step: overlapping windows, whose distance is `3·step`, do not
merge); a merge extends the previous spike to the window's end and keeps the
maximum rate, and a non-merge appends a new spike.  Concretely, a spike
window starting exactly at the previous spike's end merges into one interval
`[0, 60]` with the maximum rate. -/
theorem spike_merge_on_near_windows :
    (detect_filler_spikes
      [⟨"hi", 0, 0.4⟩, ⟨"um", 1, 1.3⟩, ⟨"um", 2, 2.3⟩, ⟨"um", 3, 3.3⟩, ⟨"um", 4, 4.3⟩,
       ⟨"um", 5, 5.3⟩, ⟨"um", 53, 53.3⟩, ⟨"um", 54, 54.3⟩, ⟨"um", 55, 55.3⟩,
       ⟨"um", 56, 56.3⟩, ⟨"um", 57, 57.3⟩, ⟨"the", 59.5, 60⟩] 30 10
      = [⟨0, 60, 10⟩]) ∧
    (∀ (window_sec step_sec thr : ℚ) (filler_times : List ℚ) (init : List Spike)
        (lastSpike : Spike) (current_start : ℚ),
      thr ≤ windowRate window_sec filler_times current_start →
      |lastSpike.end_sec - current_start| < step_sec →
      spikeStep window_sec step_sec thr filler_times (init ++ [lastSpike]) current_start
        = init ++ [⟨lastSpike.start_sec, current_start + window_sec,
            max lastSpike.filler_rate (windowRate window_sec filler_times current_start)⟩]) ∧
    (∀ (window_sec step_sec thr : ℚ) (filler_times : List ℚ) (init : List Spike)
        (lastSpike : Spike) (current_start : ℚ),
      thr ≤ windowRate window_sec filler_times current_start →
      ¬ |lastSpike.end_sec - current_start| < step_sec →
      spikeStep window_sec step_sec thr filler_times (init ++ [lastSpike]) current_start
        = (init ++ [lastSpike]) ++ [⟨current_start, current_start + window_sec,
            windowRate window_sec filler_times current_start⟩]) := by
  refine ⟨?_, spikeStep_extends, spikeStep_appends⟩
  norm_num [detect_filler_spikes, spikeFuel, spikeLoop, spikeStep, windowRate,
    List.filter_cons, List.getLast?, min_def, max_def, abs, List.cons_ne_nil,
    show normalize_token "um" ∈ FILLER_TOKENS from by decide,
    show ¬(normalize_token "hi" ∈ FILLER_TOKENS) from by decide,
    show ¬(normalize_token "the" ∈ FILLER_TOKENS) from by decide]

/-- C1 (witness for the amended claim): the merge branch fires for a spike
window starting exactly at the previous spike's end, and the append branch
fires for one starting `3·step` before it. -/
theorem spike_merge_on_near_windows_witness :
    ((10 : ℚ) ≤ windowRate 30 [31, 32, 33, 34, 35] 30 ∧
      |(Spike.mk 0 30 10).end_sec - (30 : ℚ)| < 30 / 4 ∧
      spikeStep 30 (30/4) 10 [31, 32, 33, 34, 35] [⟨0, 30, 10⟩] 30
        = [⟨0, 60, max 10 (windowRate 30 [31, 32, 33, 34, 35] 30)⟩]) ∧
    ((10 : ℚ) ≤ windowRate 30 [10, 11, 12, 13, 14] (15/2) ∧
      ¬ |(Spike.mk 0 30 10).end_sec - (15/2 : ℚ)| < 30 / 4 ∧
      spikeStep 30 (30/4) 10 [10, 11, 12, 13, 14] [⟨0, 30, 10⟩] (15/2)
        = [⟨0, 30, 10⟩, ⟨15/2, 15/2 + 30, windowRate 30 [10, 11, 12, 13, 14] (15/2)⟩]) := by
  have hrate1 : (10 : ℚ) ≤ windowRate 30 [31, 32, 33, 34, 35] 30 := by
    norm_num [windowRate, List.filter_cons]
  have hnear : |(Spike.mk 0 30 10).end_sec - (30 : ℚ)| < 30 / 4 := by
    norm_num [abs]
  have hrate2 : (10 : ℚ) ≤ windowRate 30 [10, 11, 12, 13, 14] (15/2) := by
    norm_num [windowRate, List.filter_cons]
  have hfar : ¬ |(Spike.mk 0 30 10).end_sec - (15/2 : ℚ)| < 30 / 4 := by
    norm_num [abs]
  refine ⟨⟨hrate1, hnear, ?_⟩, ⟨hrate2, hfar, ?_⟩⟩
  · have := (spike_merge_on_near_windows.2.1) 30 (30/4) 10 [31, 32, 33, 34, 35] []
      ⟨0, 30, 10⟩ 30 hrate1 hnear
    simpa [show (30:ℚ) + 30 = 60 from by norm_num] using this
  · have := (spike_merge_on_near_windows.2.2) 30 (30/4) 10 [10, 11, 12, 13, 14] []
      ⟨0, 30, 10⟩ (15/2) hrate2 hfar
    simpa using this

/-- C2: for every input list of pause candidates, every pair of distinct
pauses in the output of `merge_overlapping_pauses` overlaps by strictly less
than the 0.1 s significance tolerance. -/
theorem reconciled_pauses_no_significant_overlap (pauses : List Pause) :
    (merge_overlapping_pauses pauses).Pairwise
      fun p q => overlap_duration p q < 1/10 :=
  merge_overlapping_pauses_pairwise pauses

/-- C3: reconciling a word-gap pause `[1.0, 2.0]` with an overlapping
voice-activity pause `[1.5, 2.5]` yields exactly the single pause
`[1.5, 2.5]` tagged `vad`; in general, a VAD candidate significantly
overlapping a first-overlapping accepted ASR pause replaces it in place, and
an ASR candidate significantly overlapping a first-overlapping accepted VAD
pause is discarded. -/
theorem vad_priority_over_asr :
    (merge_overlapping_pauses
        [⟨1, 2, 1, Source.asr⟩, ⟨1.5, 2.5, 1, Source.vad⟩]
      = [⟨1.5, 2.5, 1, Source.vad⟩]) ∧
    (∀ (pre : List Pause) (e : Pause) (rest : List Pause) (c : Pause),
      (∀ m ∈ pre, overlap_duration c m < 1/10) →
      1/10 ≤ overlap_duration c e →
      c.source = Source.vad → e.source = Source.asr →
      resolveOverlap (pre ++ e :: rest) c = pre ++ c :: rest) ∧
    (∀ (pre : List Pause) (e : Pause) (rest : List Pause) (c : Pause),
      (∀ m ∈ pre, overlap_duration c m < 1/10) →
      1/10 ≤ overlap_duration c e →
      c.source = Source.asr → e.source = Source.vad →
      resolveOverlap (pre ++ e :: rest) c = pre ++ e :: rest) := by
  refine ⟨?_, resolveOverlap_replaces, resolveOverlap_discards⟩
  norm_num [merge_overlapping_pauses, sortByStart, List.insertionSort, List.orderedInsert,
    mergeLoop, resolveOverlap, pauses_overlap, overlap_duration, mergedPause, pauseLE]

/-- C3 (witness): the replacement and discard rules applied to the concrete
pauses of the claim. -/
theorem vad_priority_over_asr_witness :
    ((1 : ℚ)/10 ≤ overlap_duration ⟨1.5, 2.5, 1, Source.vad⟩ ⟨1, 2, 1, Source.asr⟩ ∧
      resolveOverlap [⟨1, 2, 1, Source.asr⟩] ⟨1.5, 2.5, 1, Source.vad⟩
        = [⟨1.5, 2.5, 1, Source.vad⟩]) ∧
    ((1 : ℚ)/10 ≤ overlap_duration ⟨1, 2, 1, Source.asr⟩ ⟨1.5, 2.5, 1, Source.vad⟩ ∧
      resolveOverlap [⟨1.5, 2.5, 1, Source.vad⟩] ⟨1, 2, 1, Source.asr⟩
        = [⟨1.5, 2.5, 1, Source.vad⟩]) := by
  have hov1 : (1 : ℚ)/10 ≤ overlap_duration ⟨1.5, 2.5, 1, Source.vad⟩ ⟨1, 2, 1, Source.asr⟩ := by
    norm_num [overlap_duration, min_def, max_def]
  have hov2 : (1 : ℚ)/10 ≤ overlap_duration ⟨1, 2, 1, Source.asr⟩ ⟨1.5, 2.5, 1, Source.vad⟩ := by
    norm_num [overlap_duration, min_def, max_def]
  refine ⟨⟨hov1, ?_⟩, ⟨hov2, ?_⟩⟩
  · have := vad_priority_over_asr.2.1 [] ⟨1, 2, 1, Source.asr⟩ []
      ⟨1.5, 2.5, 1, Source.vad⟩ (by simp) hov1 rfl rfl
    simpa using this
  · have := vad_priority_over_asr.2.2 [] ⟨1.5, 2.5, 1, Source.vad⟩ []
      ⟨1, 2, 1, Source.asr⟩ (by simp) hov2 rfl rfl
    simpa using this

/-- C4 (counterexample): a 0.1 s pause whose nearest preceding token ends in
`"."` is classified `"awkward"`, not `"helpful"`: the `duration < 0.2`
artefact check precedes the sentence-punctuation check. -/
theorem short_pause_after_sentence_awkward :
    find_word_before [⟨"end.", 0, 4⟩] 5 = some ⟨"end.", 0, 4⟩ ∧
    endsWithSentencePunct "end." = true ∧
    classify_pause_context ⟨5, 5.1, 0.1, Source.asr⟩ [⟨"end.", 0, 4⟩] = "awkward" := by
  refine ⟨?_, by decide, ?_⟩
  · norm_num [find_word_before]
  · norm_num [classify_pause_context]

/-- C4 (amended): for every pause of duration at least 0.2 s (below that the
artefact rule fires first) whose nearest preceding token is nonempty and ends
with sentence-terminal punctuation, the contextual classifier returns
`"helpful"`, regardless of how large the duration is. -/
theorem pause_after_sentence_is_helpful (p : Pause) (ws : List Word) (w : Word)
    (hdur : 0.2 ≤ p.duration)
    (hw : find_word_before ws p.start = some w)
    (hne : w.text ≠ "")
    (hpunct : endsWithSentencePunct w.text = true) :
    classify_pause_context p ws = "helpful" := by
  simp only [classify_pause_context, hw]
  rw [if_neg (not_lt.mpr hdur), if_pos ⟨hne, hpunct⟩]

/-- C4 (witness): a 3 s pause after `"end."` is classified helpful. -/
theorem pause_after_sentence_is_helpful_witness :
    (0.2 : ℚ) ≤ (3 : ℚ) ∧
    find_word_before [⟨"end.", 0, 4⟩] 5 = some ⟨"end.", 0, 4⟩ ∧
    classify_pause_context ⟨5, 8, 3, Source.asr⟩ [⟨"end.", 0, 4⟩] = "helpful" := by
  have hw : find_word_before [(⟨"end.", 0, 4⟩ : Word)] 5 = some ⟨"end.", 0, 4⟩ := by
    norm_num [find_word_before]
  exact ⟨by norm_num, hw,
    pause_after_sentence_is_helpful ⟨5, 8, 3, Source.asr⟩ [⟨"end.", 0, 4⟩] ⟨"end.", 0, 4⟩
      (by norm_num) hw (by decide) (by decide)⟩

/-- C5: aggregating `(90, 0.8)`, `(60, 0.5)` and an abstained result yields
score `round((90*0.8 + 60*0.5)/1.3) = 78`, confidence `0.65` and label
`"good"`; in general abstained and score-less metrics are skipped and the
returned score is the rounded confidence-weighted mean of the rest, the
returned confidence the rounded plain mean of their confidences. -/
theorem overall_score_weighted_mean :
    (compute_overall_score
        [⟨some 90, "good", 0.8, false, none, []⟩,
         ⟨some 60, "ok", 0.5, false, none, []⟩,
         abstainedMetric "x"] = ⟨78, "good", 0.65⟩) ∧
    (∀ metrics : List MetricResult,
      contributing metrics ≠ [] →
      ((contributing metrics).map fun m => m.confidence).sum ≠ 0 →
      (compute_overall_score metrics).score_0_100 = pyRound (overallMean metrics) ∧
        (compute_overall_score metrics).confidence
          = roundTo2 (((contributing metrics).map fun m => m.confidence).sum /
              ((((contributing metrics).map fun m => m.confidence).length : ℕ) : ℚ))) := by
  constructor
  · norm_num [compute_overall_score, contributing, abstainedMetric, scoreOf, pyRound,
      roundTo2, List.cons_ne_nil]
  · intro metrics h1 h2
    have hcond : ¬(((contributing metrics).map fun m => m.confidence) = [] ∨
        ((contributing metrics).map fun m => m.confidence).sum = 0) := by
      push_neg
      refine ⟨?_, h2⟩
      simpa using h1
    rw [compute_overall_score, if_neg hcond]
    exact ⟨rfl, rfl⟩

/-- C5 (witness): the general weighted-mean clause applied to the concrete
metric list of the claim. -/
theorem overall_score_weighted_mean_witness :
    contributing
        [⟨some 90, "good", 0.8, false, none, []⟩,
         ⟨some 60, "ok", 0.5, false, none, []⟩,
         abstainedMetric "x"] ≠ [] ∧
    (compute_overall_score
        [⟨some 90, "good", 0.8, false, none, []⟩,
         ⟨some 60, "ok", 0.5, false, none, []⟩,
         abstainedMetric "x"]).score_0_100
      = pyRound (overallMean
        [⟨some 90, "good", 0.8, false, none, []⟩,
         ⟨some 60, "ok", 0.5, false, none, []⟩,
         abstainedMetric "x"]) := by
  have h1 : contributing
      [(⟨some 90, "good", 0.8, false, none, []⟩ : MetricResult),
       ⟨some 60, "ok", 0.5, false, none, []⟩,
       abstainedMetric "x"] ≠ [] := by
    norm_num [contributing, abstainedMetric, List.cons_ne_nil]
  have h2 : ((contributing
      [(⟨some 90, "good", 0.8, false, none, []⟩ : MetricResult),
       ⟨some 60, "ok", 0.5, false, none, []⟩,
       abstainedMetric "x"]).map fun m => m.confidence).sum ≠ 0 := by
    norm_num [contributing, abstainedMetric]
  exact ⟨h1, (overall_score_weighted_mean.2 _ h1 h2).1⟩

/-- C6: every MetricResult produced by the five metric functions satisfies
`score = none ↔ abstained`, and abstention forces zero confidence and empty
feedback; in particular `compute_pace_metric [] 0` abstains with score
`none` and confidence 0. -/
theorem metric_results_satisfy_invariant :
    (∀ (words : List Word) (d : ℚ), metricResultInvariant (compute_pace_metric words d)) ∧
    (∀ (words : List Word) (d : ℚ), metricResultInvariant (compute_fillers_metric words d)) ∧
    (∀ (wp : List PauseIn) (vs : List VadSilence) (d : ℚ) (ws : List Word),
      metricResultInvariant (compute_pause_quality_metric wp vs d ws).1) ∧
    (∀ (af : AudioFeatures) (d : ℚ) (raw : Option (List (Option ℚ))),
      metricResultInvariant (compute_intonation_metric af d raw)) ∧
    (∀ (t : String) (ns sc lc : ℕ),
      metricResultInvariant (compute_content_structure_metric t ns sc lc)) ∧
    compute_pace_metric [] 0 = ⟨none, "abstained", 0, true, some "no_words", []⟩ := by
  refine ⟨?_, ?_, ?_, ?_, ?_, ?_⟩
  · intro words d
    by_cases h : words = [] ∨ d ≤ 0
    · simp [compute_pace_metric, h, metricResultInvariant]
    · simp [compute_pace_metric, h, metricResultInvariant]
  · intro words d
    by_cases h : d ≤ 0 ∨ words = []
    · simp [compute_fillers_metric, h, abstainedMetric, metricResultInvariant]
    · push_neg at h
      simp [compute_fillers_metric, not_le.mpr h.1, h.2, abstainedMetric,
        metricResultInvariant]
  · intro wp vs d ws
    by_cases hd : d ≤ 0
    · simp [compute_pause_quality_metric, hd, abstainedMetric, metricResultInvariant]
    · by_cases hc : combine_pauses wp vs d (3/10) = []
      · simp [compute_pause_quality_metric, hd, hc, abstainedMetric, metricResultInvariant]
      · simp [compute_pause_quality_metric, hd, hc, abstainedMetric, metricResultInvariant]
  · intro af d raw
    by_cases hd : d ≤ 3
    · simp [compute_intonation_metric, hd, abstainedMetric, metricResultInvariant]
    · cases hp : af.pitch_std_hz <;>
        simp [compute_intonation_metric, hd, hp, abstainedMetric, metricResultInvariant]
  · intro t ns sc lc
    by_cases ht : pyStrip t = ""
    · simp [compute_content_structure_metric, ht, abstainedMetric, metricResultInvariant]
    · by_cases hl : (label_and_score ns sc lc).1 = "abstained"
      · simp [compute_content_structure_metric, ht, hl, abstainedMetric, metricResultInvariant]
      · simp [compute_content_structure_metric, ht, hl, abstainedMetric, metricResultInvariant]
  · simp [compute_pace_metric]

/-- C6 (witness): the invariant instantiated at `compute_pace_metric [] 0`. -/
theorem metric_results_satisfy_invariant_witness :
    metricResultInvariant (compute_pace_metric [] 0) :=
  metric_results_satisfy_invariant.1 [] 0

/-- C7: fixed segmentation of a 105 s recording with 30 s segments yields the
windows `[0,30), [30,60), [60,90), [90,105)`, the last one 15 s wide with
rate denominator 15 s (3 tokens in `[90, 105)` give `3/(15/60) = 12` wpm);
in general every emitted window spans `[t, min(t + s, duration))` and its
rate divides the count of tokens starting in the window by that window's
actual duration in minutes. -/
theorem segment_windows_use_actual_duration :
    (compute_segment_wpm
        [⟨"a", 10, 11⟩, ⟨"b", 40, 41⟩, ⟨"c", 41, 42⟩, ⟨"d", 65, 66⟩,
         ⟨"e", 95, 96⟩, ⟨"f", 96, 97⟩, ⟨"g", 97, 98⟩] 105 30
      = [⟨0, 30, 2⟩, ⟨30, 60, 4⟩, ⟨60, 90, 2⟩, ⟨90, 105, 12⟩]) ∧
    (∀ (words : List Word) (d s : ℚ), ∀ seg ∈ compute_segment_wpm words d s,
      seg.end_sec = min (seg.start_sec + s) d ∧
        0 < seg.end_sec - seg.start_sec ∧
        seg.wpm = ((words.filter fun w =>
            decide (seg.start_sec ≤ w.start) && decide (w.start < seg.end_sec)).length : ℚ) /
          ((seg.end_sec - seg.start_sec) / 60)) := by
  constructor
  · norm_num [compute_segment_wpm, segmentLoop, compute_wpm, List.cons_ne_nil,
      show ⌊(105:ℚ)/30⌋ = 3 from by norm_num]
  · intro words d s seg hseg
    rw [compute_segment_wpm] at hseg
    by_cases h : words = [] ∨ d ≤ 0
    · rw [if_pos h] at hseg
      exact absurd hseg (List.not_mem_nil seg)
    · rw [if_neg h] at hseg
      exact segmentLoop_spec words d s _ 0 seg hseg

/-- C7 (witness): the general windowing clause applied to the last window of
the 105 s example. -/
theorem segment_windows_use_actual_duration_witness :
    (Segment.mk 90 105 12).end_sec = min ((Segment.mk 90 105 12).start_sec + 30) 105 ∧
      0 < (Segment.mk 90 105 12).end_sec - (Segment.mk 90 105 12).start_sec ∧
      (Segment.mk 90 105 12).wpm
        = ((([⟨"a", 10, 11⟩, ⟨"b", 40, 41⟩, ⟨"c", 41, 42⟩, ⟨"d", 65, 66⟩,
            ⟨"e", 95, 96⟩, ⟨"f", 96, 97⟩, ⟨"g", 97, 98⟩] : List Word).filter fun w =>
            decide ((Segment.mk 90 105 12).start_sec ≤ w.start) &&
              decide (w.start < (Segment.mk 90 105 12).end_sec)).length : ℚ) /
          (((Segment.mk 90 105 12).end_sec - (Segment.mk 90 105 12).start_sec) / 60) := by
  apply segment_windows_use_actual_duration.2
    [⟨"a", 10, 11⟩, ⟨"b", 40, 41⟩, ⟨"c", 41, 42⟩, ⟨"d", 65, 66⟩,
     ⟨"e", 95, 96⟩, ⟨"f", 96, 97⟩, ⟨"g", 97, 98⟩] 105 30
  rw [segment_windows_use_actual_duration.1]
  simp

/-- The label branch of `compute_overall_score` characterised by threshold
intervals on its (pre-rounding) input. -/
theorem overall_label_cases (μ : ℚ) :
    ((if 85 ≤ μ then "excellent" else if 70 ≤ μ then "good"
        else if 50 ≤ μ then "needs_improvement" else "poor") = "excellent" ↔ 85 ≤ μ) ∧
    ((if 85 ≤ μ then "excellent" else if 70 ≤ μ then "good"
        else if 50 ≤ μ then "needs_improvement" else "poor") = "good" ↔ 70 ≤ μ ∧ μ < 85) ∧
    ((if 85 ≤ μ then "excellent" else if 70 ≤ μ then "good"
        else if 50 ≤ μ then "needs_improvement" else "poor") = "needs_improvement"
      ↔ 50 ≤ μ ∧ μ < 70) ∧
    ((if 85 ≤ μ then "excellent" else if 70 ≤ μ then "good"
        else if 50 ≤ μ then "needs_improvement" else "poor") = "poor" ↔ μ < 50) := by
  rcases le_or_lt 85 μ with h85 | h85
  · have h70 : (70:ℚ) ≤ μ := by linarith
    have h50 : (50:ℚ) ≤ μ := by linarith
    refine ⟨?_, ?_, ?_, ?_⟩ <;>
      simp [h85, h70, h50, not_lt.mpr h85, not_lt.mpr h70, not_lt.mpr h50]
  · rcases le_or_lt 70 μ with h70 | h70
    · have h50 : (50:ℚ) ≤ μ := by linarith
      refine ⟨?_, ?_, ?_, ?_⟩ <;>
        simp [not_le.mpr h85, h70, h50, h85, not_lt.mpr h70, not_lt.mpr h50]
    · rcases le_or_lt 50 μ with h50 | h50
      · refine ⟨?_, ?_, ?_, ?_⟩ <;>
          simp [not_le.mpr h85, not_le.mpr h70, h50, h70, not_lt.mpr h50]
      · refine ⟨?_, ?_, ?_, ?_⟩ <;>
          simp [not_le.mpr h85, not_le.mpr h70, not_le.mpr h50, h50]

/-- C8 (counterexample): metrics `(84, 0.4)` and `(85, 0.6)` weighted-average
to 84.6, which rounds to the returned integer score 85 but is labelled by the
pre-rounding mean: the result carries score 85 with label `"good"`, so the
label thresholds do not apply to the returned integer score. -/
theorem overall_label_disagrees_with_rounded_score :
    (compute_overall_score
        [⟨some 84, "a", 0.4, false, none, []⟩,
         ⟨some 85, "b", 0.6, false, none, []⟩]).score_0_100 = 85 ∧
    (compute_overall_score
        [⟨some 84, "a", 0.4, false, none, []⟩,
         ⟨some 85, "b", 0.6, false, none, []⟩]).label ≠ "excellent" := by
  have h : compute_overall_score
      [⟨some 84, "a", 0.4, false, none, []⟩,
       ⟨some 85, "b", 0.6, false, none, []⟩] = ⟨85, "good", 0.5⟩ := by
    norm_num [compute_overall_score, contributing, scoreOf, pyRound, roundTo2,
      List.cons_ne_nil]
  rw [h]
  exact ⟨rfl, by simp⟩

/-- C8 (amended): whenever some metric contributes, the returned label is
internally consistent with the thresholds applied to the exact
confidence-weighted mean (before rounding), and the returned integer score is
the half-even rounding of that mean; at the thresholds the label can therefore
disagree with the rounded integer score. -/
theorem overall_label_matches_exact_mean (metrics : List MetricResult)
    (h1 : contributing metrics ≠ [])
    (h2 : ((contributing metrics).map fun m => m.confidence).sum ≠ 0) :
    ((compute_overall_score metrics).label = "excellent" ↔ 85 ≤ overallMean metrics) ∧
    ((compute_overall_score metrics).label = "good"
      ↔ 70 ≤ overallMean metrics ∧ overallMean metrics < 85) ∧
    ((compute_overall_score metrics).label = "needs_improvement"
      ↔ 50 ≤ overallMean metrics ∧ overallMean metrics < 70) ∧
    ((compute_overall_score metrics).label = "poor" ↔ overallMean metrics < 50) ∧
    (compute_overall_score metrics).score_0_100 = pyRound (overallMean metrics) := by
  have hcond : ¬(((contributing metrics).map fun m => m.confidence) = [] ∨
      ((contributing metrics).map fun m => m.confidence).sum = 0) := by
    push_neg
    refine ⟨?_, h2⟩
    simpa using h1
  have hlabel : (compute_overall_score metrics).label
      = (if 85 ≤ overallMean metrics then "excellent"
        else if 70 ≤ overallMean metrics then "good"
        else if 50 ≤ overallMean metrics then "needs_improvement" else "poor") := by
    rw [compute_overall_score, if_neg hcond]
    rfl
  have hscore : (compute_overall_score metrics).score_0_100
      = pyRound (overallMean metrics) := by
    rw [compute_overall_score, if_neg hcond]
    rfl
  rw [hlabel, hscore]
  obtain ⟨hA, hB, hC, hD⟩ := overall_label_cases (overallMean metrics)
  exact ⟨hA, hB, hC, hD, rfl⟩

/-- C8 (witness): the amended labelling rule applied to the metric list with
mean 84.6: score 85, label `"good"` because `84.6 < 85`. -/
theorem overall_label_matches_exact_mean_witness :
    contributing
        [⟨some 84, "a", 0.4, false, none, []⟩,
         ⟨some 85, "b", 0.6, false, none, []⟩] ≠ [] ∧
    ((compute_overall_score
        [⟨some 84, "a", 0.4, false, none, []⟩,
         ⟨some 85, "b", 0.6, false, none, []⟩]).label = "good"
      ↔ 70 ≤ overallMean
          [⟨some 84, "a", 0.4, false, none, []⟩,
           ⟨some 85, "b", 0.6, false, none, []⟩] ∧
        overallMean
          [⟨some 84, "a", 0.4, false, none, []⟩,
           ⟨some 85, "b", 0.6, false, none, []⟩] < 85) := by
  have h1 : contributing
      [(⟨some 84, "a", 0.4, false, none, []⟩ : MetricResult),
       ⟨some 85, "b", 0.6, false, none, []⟩] ≠ [] := by
    norm_num [contributing, List.cons_ne_nil]
  have h2 : ((contributing
      [(⟨some 84, "a", 0.4, false, none, []⟩ : MetricResult),
       ⟨some 85, "b", 0.6, false, none, []⟩]).map fun m => m.confidence).sum ≠ 0 := by
    norm_num [contributing]
  exact ⟨h1, (overall_label_matches_exact_mean _ h1 h2).2.1⟩

/-- C9: the reconciler is idempotent on its own output; the single-source
hypothesis of the claim is not even needed. -/
theorem reconciler_idempotent (pauses : List Pause) (s : Source)
    (hsrc : ∀ p ∈ pauses, p.source = s) :
    merge_overlapping_pauses (merge_overlapping_pauses pauses)
      = merge_overlapping_pauses pauses :=
  merge_overlapping_pauses_idem pauses

/-- C9 (witness): idempotence on the reconciliation of the two ASR pauses
`[1, 2]` and `[1.8, 3]` of the spec's same-source example. -/
theorem reconciler_idempotent_witness :
    (∀ p ∈ [(⟨1, 2, 1, Source.asr⟩ : Pause), ⟨1.8, 3, 1.2, Source.asr⟩],
      p.source = Source.asr) ∧
    merge_overlapping_pauses (merge_overlapping_pauses
        [⟨1, 2, 1, Source.asr⟩, ⟨1.8, 3, 1.2, Source.asr⟩])
      = merge_overlapping_pauses [⟨1, 2, 1, Source.asr⟩, ⟨1.8, 3, 1.2, Source.asr⟩] := by
  refine ⟨?_, reconciler_idempotent _ Source.asr ?_⟩ <;>
    · intro p hp
      rcases List.mem_cons.mp hp with h | h
      · rw [h]
      · rw [List.mem_singleton.mp h]

/-- C10: the intonation metric abstains with reason
`"talk_too_short_for_intonation"` for every recording of duration at most
3 s, whatever pitch and energy features are supplied — a stricter cutoff than
the generic non-positive-duration abstention. -/
theorem intonation_abstains_at_three_seconds (af : AudioFeatures) (d : ℚ)
    (raw : Option (List (Option ℚ))) (hd : d ≤ 3) :
    compute_intonation_metric af d raw
      = ⟨none, "abstained", 0, true, some "talk_too_short_for_intonation", []⟩ := by
  rw [compute_intonation_metric, if_pos hd]
  rfl

/-- C10 (witness): a 2 s recording with complete, valid pitch and energy
features and a full raw pitch series still abstains. -/
theorem intonation_abstains_at_three_seconds_witness :
    (2 : ℚ) ≤ 3 ∧
    compute_intonation_metric ⟨some 200, some 30, some 0.02, some 0.01⟩ 2
        (some [some 180, some 190, some 200, some 210, some 220, some 180,
               some 190, some 200, some 210, some 220, some 200, some 205])
      = ⟨none, "abstained", 0, true, some "talk_too_short_for_intonation", []⟩ :=
  ⟨by norm_num,
    intonation_abstains_at_three_seconds ⟨some 200, some 30, some 0.02, some 0.01⟩ 2
      (some [some 180, some 190, some 200, some 210, some 220, some 180,
             some 190, some 200, some 210, some 220, some 200, some 205])
      (by norm_num)⟩
